import Mathlib

/-!
Shallow embedding of the request-execution core of the
go-omniboost-http-client repository (package `client`: client.go,
error.go, options.go), used to check the natural-language specification
against the code.

The embedding follows the current client.go (the variant that matches
go.mod: it has preflight auth, auth-skip preferences, cookies and
tracing).  External collaborators that the core merely calls — net/url
parsing, path.Join, text/template, the jsoniter codec, the HTTP
transport, the preflight signing function — are modelled as opaque
functions collected in a `GoEnv` record, exactly at the boundary where
the Go code calls out of the repository.  Side effects that cannot
influence the returned error value (tracing spans, debug dumps, the
cookie jar, the 100ms sleep duration itself) are not modelled, except
that the number of backoff sleeps is counted in the outcome record.
-/

/-- Outcome of one jsoniter `Unmarshal` call on one decode target:
success, an `io.EOF`-classified error (empty input), or another decode
error carrying its message.  The codec is external (json-iterator), so
per-target outcomes are supplied by the environment. -/
inductive DecodeOutcome where
  | ok
  | eof
  | fail (msg : String)
deriving DecidableEq

/-- An `*http.Response` as far as the core inspects it: status code,
status line, and the body bytes (the code dumps the response so the
body stays readable; `io.ReadAll` is modelled as always succeeding on
these in-memory bytes). -/
structure HttpResp where
  statusCode : Int
  status : String
  body : String
deriving DecidableEq

/-- Go `error` values produced or wrapped by the core.
`errorResponse` is the repository's `ErrorResponse` struct (message,
nil-able originating response, optional `Parent`); `wrap` models
`fmt.Errorf("<prefix>: %w", err)`; `joined` models `errors.Join` of a
non-empty list; `transport` is an error returned by the HTTP transport;
`slotErr` is a caller-declared error struct rendered to its current
message; `simple` is `errors.New` or any other opaque error. -/
inductive GoError where
  | simple (msg : String)
  | transport (msg : String)
  | slotErr (msg : String)
  | wrap (pre : String) (inner : GoError)
  | joined (errs : List GoError)
  | errorResponse (message : String) (resp : Option HttpResp) (parent : Option GoError)

mutual

/-- `Error()` rendering of a `GoError`.  For `ErrorResponse` this is the
code in error.go: the bare message when `Parent` is nil, otherwise
`strings.Join([]string{message, parent.Error()}, ": ")`.  `errors.Join`
renders its members separated by newlines. -/
def goErrorMessage : GoError → String
  | .simple m => m
  | .transport m => m
  | .slotErr m => m
  | .wrap pre inner => pre ++ ": " ++ goErrorMessage inner
  | .joined es => String.intercalate "\n" (goErrorMessageList es)
  | .errorResponse m _ none => m
  | .errorResponse m _ (some p) => String.intercalate ": " [m, goErrorMessage p]

def goErrorMessageList : List GoError → List String
  | [] => []
  | e :: es => goErrorMessage e :: goErrorMessageList es

end

/-- `Unwrap()`: `ErrorResponse.Unwrap` returns `Parent`; an error made
with `fmt.Errorf("...: %w", e)` unwraps to `e`; other errors used here
have no single unwrap. -/
def goUnwrap : GoError → Option GoError
  | .wrap _ inner => some inner
  | .errorResponse _ _ p => p
  | _ => none

/-- `NewErrorResponse` from error.go. -/
def NewErrorResponse (message : String) (resp : Option HttpResp) (parent : Option GoError) : GoError :=
  .errorResponse message resp parent

/-- `errors.Join` over already-collected non-nil errors: nil when the
list is empty, otherwise a join error over the list. -/
def joinErrors (es : List GoError) : Option GoError :=
  if es.isEmpty then none else some (.joined es)

/-- One caller-declared "parsable error" destination instance
(an element of `ErrorStructs()`, idiomatically a pointer to a zero
struct).  `zeroMsg` is its `Error()` rendering before any decode;
`dec b` is the jsoniter outcome of decoding body bytes `b` into its
pointee; `msgAfter b` is its `Error()` rendering after a successful
decode of `b`.  A failed or EOF decode leaves the struct unchanged. -/
structure ErrSlot where
  zeroMsg : String
  dec : String → DecodeOutcome
  msgAfter : String → String

/-- The dynamic shape of `Body()`: an `io.Reader` (identified
opaquely), raw `[]byte`, a `string`, or any other value (identified
opaquely, to be JSON-encoded). -/
inductive BodyVal where
  | reader (id : Nat)
  | bytes (data : List UInt8)
  | str (s : String)
  | other (v : Nat)
deriving DecidableEq

/-- The outbound request body produced by `getRequestBody`: the reader
passed through unchanged, a fixed-length `bytes.NewReader` over the
given bytes, or the buffer filled by a jsoniter `Encode`. -/
inductive OutBody where
  | passthroughReader (id : Nat)
  | fixedLen (data : List UInt8)
  | encodedJson (data : String)
deriving DecidableEq

/-- Which jsoniter codec instance performs an encode: the package-level
default (`jsoniter.NewEncoder`), or the client's configured, lazily
cached instance (`c.GetJsoniter()`, with SortMapKeys,
ValidateJsonRawMessage and the DisallowUnknownFields option). -/
inductive JEncoder where
  | jsoniterDefault
  | clientConfigured
deriving DecidableEq

/-- `[]byte(s)` in Go: the UTF-8 bytes of the string. -/
def goStrBytes (s : String) : List UInt8 :=
  s.toUTF8.toList

/-- One struct field of the request value as reflection sees it.
`tags` maps struct-tag keys to tag values; for pointer fields,
`isZero`, `zeroerIsZero` and `value` describe the dereferenced value
(they are irrelevant when `ptrNil`).  `zeroerIsZero` is `some b` when
the raw value implements the `isZeroer` interface and its `IsZero()`
returns `b`.  `value` is the field rendering used for parameters. -/
structure FieldInfo where
  tags : List (String × String)
  isPtr : Bool
  ptrNil : Bool
  isZero : Bool
  zeroerIsZero : Option Bool
  value : String
deriving DecidableEq

/-- Splitting a character list at every occurrence of a character,
keeping empty segments. -/
def splitOnChar (c : Char) : List Char → List (List Char)
  | [] => [[]]
  | x :: xs =>
    if x = c then [] :: splitOnChar c xs
    else
      match splitOnChar c xs with
      | [] => [[x]]
      | seg :: segs => (x :: seg) :: segs

/-- Go `strings.Split(s, ",")`: split at every comma, the empty string
giving a single empty part. -/
def goSplitComma (s : String) : List String :=
  (splitOnChar (Char.ofNat 44) s.data).map String.mk

/-- `reflect.StructTag.Lookup`. -/
def lookupTag (tags : List (String × String)) (key : String) : Option String :=
  (tags.find? (fun p => p.1 == key)).map (fun p => p.2)

/-- Insertion into a Go map modelled as an association list:
a later write to the same key overwrites the earlier one. -/
def mapInsert (m : List (String × String)) (k v : String) : List (String × String) :=
  (m.filter (fun p => p.1 ≠ k)) ++ [(k, v)]

/-- The body of the `getTaggedFields` loop for one field: `none` when
the field is skipped.  Mirrors client.go: look the tag up, split on
commas, take the first part as the parameter name; a nil pointer field
is skipped unconditionally; a non-nil pointer is dereferenced; with the
`omitempty` modifier the field is skipped when `reflect.Value.IsZero`
holds or the value self-reports `IsZero()`. -/
def taggedFieldEntry (f : FieldInfo) (tag : String) : Option (String × String) :=
  match lookupTag f.tags tag with
  | none => none
  | some tagValue =>
    let parts := goSplitComma tagValue
    let name := parts.headD ""
    if f.isPtr && f.ptrNil then none
    else if parts.contains "omitempty" && (f.isZero || f.zeroerIsZero == some true) then none
    else some (name, f.value)

/-- `getTaggedFields` from client.go: walk the request struct fields and
collect the values of fields carrying the given tag into a map. -/
def getTaggedFields (fields : List FieldInfo) (tag : String) : List (String × String) :=
  fields.foldl
    (fun m f =>
      match taggedFieldEntry f tag with
      | none => m
      | some (k, v) => mapInsert m k v)
    []

/-- Result of `url.Parse` on the path template, and also the client's
base URL: a path and a parsed query (flattened to pairs in order). -/
structure UrlParts where
  path : String
  query : List (String × String)
deriving DecidableEq

/-- The request built by `getHttpRequest` as the rest of the core kit
observes it.  `basicAuth` models `req.SetBasicAuth`; `headers` collects
`req.Header.Add` calls in order. -/
structure OutboundReq where
  method : String
  urlPath : String
  urlQuery : List (String × String)
  basicAuth : Option (String × String)
  headers : List (String × String)
  body : Option OutBody
deriving DecidableEq

/-- External collaborators of the core, modelled as opaque deterministic
functions: net/url parsing, path.Join, text/template parse and execute
(keyed by the template text), the stdlib method validation inside
`http.NewRequestWithContext`, jsoniter encoding by either codec
instance, the configured preflight signing function, and the jsoniter
decode outcomes: into the caller destination pointer (`decDest`) and
into an interface holding the whole `[]error` slice value (`decSliceVal`,
which replaces the interface generically and writes none of the slots,
since the interface does not hold a pointer). -/
structure GoEnv where
  urlParse : String → Except String UrlParts
  pathJoin : String → String → String
  tmplParse : String → Except String Unit
  tmplExec : String → List (String × String) → Except String String
  validMethod : String → Bool
  encode : JEncoder → Nat → Except String String
  preflightFn : OutboundReq → Except String OutboundReq
  decDest : String → DecodeOutcome
  decSliceVal : String → DecodeOutcome

/-- The configured auth strategy. -/
inductive AuthType where
  | noAuth
  | basic
  | apiKey
  | oauth2
  | preflight
deriving DecidableEq

/-- Client configuration fields read by `Do` (immutable during a call).
`maxRetries` is a Go `int`. -/
structure ClientCfg where
  baseURL : Option UrlParts
  authType : AuthType
  userName : String
  password : String
  keyHeader : String
  keyValue : String
  maxRetries : Int
  hasPreflightFunc : Bool
  mediaType : String
  charset : String
  userAgent : String

/-- A request descriptor: the `Request` interface plus its optional
capabilities.  `fields` is what reflection sees on the request value;
`body` is `some` iff the request implements `RequestWithBody`;
`errorSlots` is `some` iff it implements `RequestWithParsableErrors`;
`authPref` is `some b` iff it implements `RequestWithAuthPreference`
with `SkipAuth() == b`. -/
structure ReqModel where
  method : String
  pathTemplate : String
  fields : List FieldInfo
  body : Option BodyVal
  errorSlots : Option (List ErrSlot)
  authPref : Option Bool

/-- What a `Do` call returns: a nil error, a non-nil error, or — for
`log.Fatal` — process termination, which is not a return at all and is
kept apart from every error value. -/
inductive DoRes where
  | ok
  | err (e : GoError)
  | fatalExit (msg : String)

/-- Result of `getHttpRequest`. -/
inductive BuildOutcome where
  | built (r : OutboundReq)
  | failed (e : GoError)
  | fatalExit (msg : String)

/-- `getRequestBody` from client.go: no `RequestWithBody` means no
body; a reader passes through; `[]byte` and `string` become
`bytes.NewReader` fixed-length sources; anything else is encoded with
`jsoniter.NewEncoder(buf).Encode(...)` — the package-level default
codec, not the client's `GetJsoniter()` instance. -/
def getRequestBody (env : GoEnv) (r : ReqModel) : Except GoError (Option OutBody) :=
  match r.body with
  | none => .ok none
  | some (.reader id) => .ok (some (.passthroughReader id))
  | some (.bytes data) => .ok (some (.fixedLen data))
  | some (.str s) => .ok (some (.fixedLen (goStrBytes s)))
  | some (.other v) =>
    match env.encode .jsoniterDefault v with
    | .ok data => .ok (some (.encodedJson data))
    | .error m => .error (.wrap "failed to encode request body" (.simple m))

/-- Tail of `getHttpRequest` after the URL work: resolve the body, then
`http.NewRequestWithContext` (whose validation failure is wrapped).
The only place a built request is constructed. -/
def finishBuild (env : GoEnv) (request : ReqModel) (p : String)
    (q : List (String × String)) : BuildOutcome :=
  match getRequestBody env request with
  | .error e => .failed e
  | .ok body =>
    if env.validMethod request.method then
      .built { method := request.method, urlPath := p, urlQuery := q,
               basicAuth := none, headers := [], body := body }
    else
      .failed (.wrap "failed to create new http request" (.simple "invalid method"))

/-- `getHttpRequest` from client.go.  Path and query tagged fields are
collected; the template is parsed as a URL (failure wrapped as
"invalid path template"); the base query, the template query and the
tagged query parameters are appended in that order; the base path and
template path are joined with `path.Join`; when any path parameters
exist, the joined path is parsed as a text/template (parse failure
wrapped) and executed with the parameter map — and an execution failure
hits `log.Fatal(err)`, terminating the process instead of returning. -/
def getHttpRequest (env : GoEnv) (request : ReqModel) (baseUrl : UrlParts) : BuildOutcome :=
  let pathParams := getTaggedFields request.fields "path"
  let queryParams := getTaggedFields request.fields "query"
  match env.urlParse request.pathTemplate with
  | .error m => .failed (.wrap "invalid path template" (.simple m))
  | .ok parsed =>
    let q := baseUrl.query ++ parsed.query ++ queryParams
    let joined := env.pathJoin baseUrl.path parsed.path
    if pathParams.isEmpty then
      finishBuild env request joined q
    else
      match env.tmplParse joined with
      | .error m => .failed (.wrap "failed to parse path template" (.simple m))
      | .ok _ =>
        match env.tmplExec joined pathParams with
        | .error m => .fatalExit m
        | .ok rendered => finishBuild env request rendered q

/-- Result of the auth switch: the possibly replaced request plus how
often the preflight function ran, or the preflight error (returned to
the caller immediately, without retry). -/
inductive AuthResult where
  | authed (r : OutboundReq) (pfCalls : Nat)
  | authFailed (e : GoError) (pfCalls : Nat)

/-- The auth section of `Do`: nothing when the request skips auth;
otherwise dispatch on the configured type — basic sets basic auth,
api-key adds the configured header pair, preflight invokes the signing
function when one is configured (its error aborts the call), and none
and oauth2 do nothing per request (the oauth2 transport wrapping
happens at configuration time). -/
def applyAuth (env : GoEnv) (cfg : ClientCfg) (skipAuth : Bool) (req : OutboundReq) : AuthResult :=
  if skipAuth then .authed req 0
  else
    match cfg.authType with
    | .basic => .authed { req with basicAuth := some (cfg.userName, cfg.password) } 0
    | .apiKey => .authed { req with headers := req.headers ++ [(cfg.keyHeader, cfg.keyValue)] } 0
    | .preflight =>
      if cfg.hasPreflightFunc then
        match env.preflightFn req with
        | .ok r2 => .authed r2 1
        | .error m => .authFailed (.simple m) 1
      else .authed req 0
    | _ => .authed req 0

/-- The three headers `Do` always adds after auth, in `Header.Add`
order. -/
def stdHeaders (cfg : ClientCfg) : List (String × String) :=
  [("Content-Type", cfg.mediaType ++ "; charset=" ++ cfg.charset),
   ("Accept", cfg.mediaType),
   ("User-Agent", cfg.userAgent)]

/-- Append the standard headers to an authenticated request. -/
def addStdHeaders (cfg : ClientCfg) (r : OutboundReq) : OutboundReq :=
  { r with headers := r.headers ++ stdHeaders cfg }

/-- `(c *client).Unmarshal` reduced to the per-target jsoniter
outcomes: nil for an empty target list; errors classified as `io.EOF`
are not counted; a non-nil combined error (the messages joined with
", ") only when every target failed. -/
def unmarshalResult (outcomes : List DecodeOutcome) : Option String :=
  if outcomes.isEmpty then none
  else
    let failMsgs := outcomes.filterMap
      (fun o => match o with | .fail m => some m | _ => none)
    if failMsgs.length = outcomes.length then
      some (String.intercalate ", " failMsgs)
    else none

/-- `checkForErrorResponse`: nil for status 200..299, otherwise an
`ErrorResponse` whose message is the status line and whose parent is
nil. -/
def checkForErrorResponse (resp : HttpResp) : Option GoError :=
  if 200 ≤ resp.statusCode ∧ resp.statusCode ≤ 299 then none
  else some (NewErrorResponse resp.status (some resp) none)

/-- The decode outcomes of the success-path `Unmarshal` call: the
destination pointer first, then one target per declared error slot
(each receives a pointer chain down to the slot pointee). -/
def successOutcomes (env : GoEnv) (body : String) (slots : List ErrSlot) : List DecodeOutcome :=
  env.decDest body :: slots.map (fun s => s.dec body)

/-- Each slot's `Error()` rendering after the success-path decode: the
decoded rendering when its jsoniter outcome was ok, its unchanged
zero rendering otherwise. -/
def slotMsgsAfter (body : String) (slots : List ErrSlot) : List String :=
  slots.map (fun s => if s.dec body = .ok then s.msgAfter body else s.zeroMsg)

/-- The response-resolution tail of `Do` (everything after a transport
success).  Error path: `c.Unmarshal(resp.Body, errorStructs)` passes
the `[]error` slice as one decode target (there is no `...` spread, and
a `[]error` cannot be spread into `[]interface` in Go), so the jsoniter
call decodes into an interface holding the slice value — which
replaces that interface generically and never writes the slots; when
that single-target call fails the status-line `ErrorResponse` is
returned with nil parent, otherwise the slots (still holding their
zero renderings) with non-empty messages are joined into the parent.
Success path: nil destination returns nil; otherwise one `Unmarshal`
over destination and slot pointers (a failure is wrapped as
"failed to unmarshal response"), then the first slot with a non-empty
rendering is returned as the parent of an "error in response"
`ErrorResponse`; otherwise nil. -/
def resolveResponse (env : GoEnv) (request : ReqModel) (dest : Bool) (resp : HttpResp) : DoRes :=
  let errorStructs := request.errorSlots.getD []
  match checkForErrorResponse resp with
  | some _ =>
    match unmarshalResult [env.decSliceVal resp.body] with
    | some _ => .err (NewErrorResponse resp.status (some resp) none)
    | none =>
      let errs := (errorStructs.filter (fun s => s.zeroMsg ≠ "")).map
        (fun s => GoError.slotErr s.zeroMsg)
      .err (NewErrorResponse resp.status (some resp) (joinErrors errs))
  | none =>
    if dest then
      match unmarshalResult (successOutcomes env resp.body errorStructs) with
      | some m => .err (NewErrorResponse "failed to unmarshal response" (some resp) (some (.simple m)))
      | none =>
        match (slotMsgsAfter resp.body errorStructs).find? (fun m => m ≠ "") with
        | some m => .err (NewErrorResponse "error in response" (some resp) (some (.slotErr m)))
        | none => .ok
    else .ok

/-- The observable outcome of one `Do` call: its returned value, how
often the transport was invoked, how often the fixed 100ms backoff
slept, how often the preflight function ran, and every request handed
to the transport, in order. -/
structure DoOutcome where
  result : DoRes
  sends : Nat
  sleeps : Nat
  preflightCalls : Nat
  sentReqs : List OutboundReq

/-- One level of `Do` with the context attempt counter made explicit.
Build the request (a build error returns immediately; the template
`log.Fatal` propagates as process exit), apply auth (a preflight error
returns immediately), add the standard headers, send.  A transport
error with `attempt < c.maxRetries` sleeps the fixed backoff,
increments the counter and re-runs the whole sequence; otherwise the
transport error is wrapped as "failed to do http request" and
returned.  A transport success goes to response resolution.

The recursion is bounded by the retry guard alone in the source; here
a structural `fuel` argument carries the bound.  `Do` supplies
`fuel = maxRetries.toNat`, which the guard keeps ahead of `attempt`
(whenever `attempt < maxRetries` holds, `fuel > 0`), so the fuel-zero
branch — which returns the same exhausted-retries value as the guard
failing — is never reached from `Do`. -/
def doAttempt (env : GoEnv) (cfg : ClientCfg) (request : ReqModel) (dest : Bool)
    (transport : Nat → Except String HttpResp) (fuel : Nat) (attempt : Nat) : DoOutcome :=
  match cfg.baseURL with
  | none => ⟨.err (.simple "client base URL not set"), 0, 0, 0, []⟩
  | some base =>
    match getHttpRequest env request base with
    | .failed e => ⟨.err e, 0, 0, 0, []⟩
    | .fatalExit m => ⟨.fatalExit m, 0, 0, 0, []⟩
    | .built req0 =>
      let skipAuth := request.authPref.getD false
      match applyAuth env cfg skipAuth req0 with
      | .authFailed e pf => ⟨.err e, 0, 0, pf, []⟩
      | .authed req1 pf =>
        let req2 := addStdHeaders cfg req1
        match transport attempt with
        | .ok resp => ⟨resolveResponse env request dest resp, 1, 0, pf, [req2]⟩
        | .error t =>
          if (attempt : Int) < cfg.maxRetries then
            match fuel with
            | f + 1 =>
              let rest := doAttempt env cfg request dest transport f (attempt + 1)
              ⟨rest.result, rest.sends + 1, rest.sleeps + 1,
               rest.preflightCalls + pf, req2 :: rest.sentReqs⟩
            | 0 =>
              ⟨.err (.wrap "failed to do http request" (.transport t)), 1, 0, pf, [req2]⟩
          else
            ⟨.err (.wrap "failed to do http request" (.transport t)), 1, 0, pf, [req2]⟩

/-- `(c *client).Do`: a missing base URL fails immediately inside
`doAttempt`; the attempt counter starts at 0 (no value in the fresh
context). -/
def Do (env : GoEnv) (cfg : ClientCfg) (request : ReqModel) (dest : Bool)
    (transport : Nat → Except String HttpResp) : DoOutcome :=
  doAttempt env cfg request dest transport cfg.maxRetries.toNat 0

/-- Modelled from the spec: the body resolution as §4.1 words it — "any
other value is JSON-encoded using the client's configured encoder",
i.e. the `GetJsoniter()` instance — for comparison with
`getRequestBody`, whose source uses the package default encoder. -/
def specGetRequestBody (env : GoEnv) (r : ReqModel) : Except GoError (Option OutBody) :=
  match r.body with
  | none => .ok none
  | some (.reader id) => .ok (some (.passthroughReader id))
  | some (.bytes data) => .ok (some (.fixedLen data))
  | some (.str s) => .ok (some (.fixedLen (goStrBytes s)))
  | some (.other v) =>
    match env.encode .clientConfigured v with
    | .ok data => .ok (some (.encodedJson data))
    | .error m => .error (.wrap "failed to encode request body" (.simple m))

/-- A plain environment for concrete runs: the URL library returns the
template text as the path with no embedded query, joining concatenates,
templates parse and render to the path text, every method is valid,
encoding yields "null", preflight is the identity, and every decode
succeeds. -/
def simpleEnv : GoEnv where
  urlParse := fun s => .ok ⟨s, []⟩
  pathJoin := fun a b => a ++ b
  tmplParse := fun _ => .ok ()
  tmplExec := fun p _ => .ok p
  validMethod := fun _ => true
  encode := fun _ _ => .ok "null"
  preflightFn := fun r => .ok r
  decDest := fun _ => .ok
  decSliceVal := fun _ => .ok

/-- A plain configuration: base URL set, no auth, no retries. -/
def simpleCfg : ClientCfg where
  baseURL := some ⟨"", []⟩
  authType := .noAuth
  userName := ""
  password := ""
  keyHeader := ""
  keyValue := ""
  maxRetries := 0
  hasPreflightFunc := false
  mediaType := "application/json"
  charset := "utf-8"
  userAgent := "omniboost/0.0.1"

/-- A plain GET request with no tagged fields, body, slots or auth
preference. -/
def simpleReq : ReqModel where
  method := "GET"
  pathTemplate := "/ping"
  fields := []
  body := none
  errorSlots := none
  authPref := none

/-- The request `getHttpRequest` builds from `simpleReq`. -/
def simpleBuilt : OutboundReq :=
  { method := "GET", urlPath := "/ping", urlQuery := [],
    basicAuth := none, headers := [], body := none }

theorem simpleReq_builds :
    getHttpRequest simpleEnv simpleReq ⟨"", []⟩ = .built simpleBuilt := rfl

/-- C10: `ErrorResponse.Error()` renders exactly the message when the
parent is nil and otherwise the message joined to the parent's
rendering by ": ", and `Unwrap()` returns exactly the stored parent. -/
theorem claim_C10_error_response_render (m : String) (rp : Option HttpResp)
    (p : Option GoError) (q : GoError) :
    goErrorMessage (.errorResponse m rp none) = m
    ∧ goErrorMessage (.errorResponse m rp (some q)) = m ++ ": " ++ goErrorMessage q
    ∧ goUnwrap (.errorResponse m rp p) = p :=
  ⟨rfl, rfl, rfl⟩

/-- C7: per-field path/query serialization semantics of
`getTaggedFields`.  A field whose tag carries the omitempty modifier
and whose (dereferenced) value is the zero value or self-reports
emptiness is excluded; a nil pointer field is excluded unconditionally;
a tagged field without omitempty that is not a nil pointer is present
under the first tag part with its value. -/
theorem claim_C7_tagged_field_omission :
    (∀ (f : FieldInfo) (tag tv : String), lookupTag f.tags tag = some tv →
        (goSplitComma tv).contains "omitempty" = true →
        (f.isZero = true ∨ f.zeroerIsZero = some true) →
        getTaggedFields [f] tag = [])
    ∧ (∀ (f : FieldInfo) (tag : String), f.isPtr = true → f.ptrNil = true →
        getTaggedFields [f] tag = [])
    ∧ (∀ (f : FieldInfo) (tag tv : String), lookupTag f.tags tag = some tv →
        (goSplitComma tv).contains "omitempty" = false →
        (f.isPtr = true → f.ptrNil = false) →
        getTaggedFields [f] tag = [((goSplitComma tv).headD "", f.value)]) := by
  refine ⟨?_, ?_, ?_⟩
  · intro f tag tv hlk hom hz
    simp only [getTaggedFields, List.foldl, taggedFieldEntry, hlk, hom]
    rcases hz with hz | hz <;> simp [hz]
  · intro f tag hp hn
    simp only [getTaggedFields, List.foldl, taggedFieldEntry]
    cases hlk : lookupTag f.tags tag <;> simp [hp, hn]
  · intro f tag tv hlk hom hptr
    simp only [getTaggedFields, List.foldl, taggedFieldEntry, hlk, hom]
    by_cases hp : f.isPtr = true
    · simp [hp, hptr hp, mapInsert]
    · simp at hp
      simp [hp, mapInsert]

/-- A field with omitempty whose value is the zero value. -/
def fieldOmitZero : FieldInfo :=
  { tags := [("query", "page,omitempty")], isPtr := false, ptrNil := false,
    isZero := true, zeroerIsZero := none, value := "0" }

/-- A nil optional field whose tag has no omitempty modifier. -/
def fieldNilPtr : FieldInfo :=
  { tags := [("query", "page")], isPtr := true, ptrNil := true,
    isZero := false, zeroerIsZero := none, value := "" }

/-- A zero-valued non-pointer field without omitempty. -/
def fieldZeroKept : FieldInfo :=
  { tags := [("query", "page")], isPtr := false, ptrNil := false,
    isZero := true, zeroerIsZero := none, value := "0" }

theorem claim_C7_witness :
    getTaggedFields [fieldOmitZero] "query" = []
    ∧ getTaggedFields [fieldNilPtr] "query" = []
    ∧ getTaggedFields [fieldZeroKept] "query" = [("page", "0")] := by
  refine ⟨?_, ?_, ?_⟩
  · exact claim_C7_tagged_field_omission.1 fieldOmitZero "query" "page,omitempty"
      rfl (by decide) (Or.inl rfl)
  · exact claim_C7_tagged_field_omission.2.1 fieldNilPtr "query" rfl rfl
  · have h := claim_C7_tagged_field_omission.2.2 fieldZeroKept "query" "page"
      rfl (by decide) (fun h => by cases h)
    simpa using h

/-- A path-tagged field, so the joined path is treated as a template. -/
def fieldPathId : FieldInfo :=
  { tags := [("path", "id")], isPtr := false, ptrNil := false,
    isZero := false, zeroerIsZero := none, value := "abc" }

/-- A request whose path template carries an `id` placeholder. -/
def reqC2 : ReqModel :=
  { method := "GET", pathTemplate := "/users/id-placeholder", fields := [fieldPathId],
    body := none, errorSlots := none, authPref := none }

/-- An environment whose template execution fails (for example a
placeholder expression that errors at render time). -/
def envC2 : GoEnv :=
  { simpleEnv with tmplExec := fun _ _ => .error "template execution failed" }

/-- C2: evaluating `getHttpRequest` at a request with a path-tagged
field whose template execution fails.  The code reaches
`log.Fatal(err)` and terminates the process instead of returning an
error value to the caller of `Do`. -/
theorem claim_C2_template_exec_fatal :
    getHttpRequest envC2 reqC2 ⟨"", []⟩ = .fatalExit "template execution failed" := rfl

/-- An environment whose two jsoniter codec instances encode the same
value differently — as the real package-default and `GetJsoniter()`
instances do, for example on map keys, since only the configured
instance sets SortMapKeys. -/
def envC6 : GoEnv :=
  { simpleEnv with
    encode := fun enc _ =>
      match enc with
      | .jsoniterDefault => .ok "unsorted-keys-bytes"
      | .clientConfigured => .ok "sorted-keys-bytes" }

/-- A request whose body is neither a reader nor bytes nor a string. -/
def reqC6 : ReqModel := { simpleReq with body := some (.other 0) }

/-- C6 counterexample: `getRequestBody` encodes the body with the
package-default jsoniter encoder, not the client's configured codec as
the claim states — at this input the outbound body is the
default-encoded bytes and differs from the configured codec's
encoding. -/
theorem claim_C6_counterexample :
    getRequestBody envC6 reqC6 = .ok (some (.encodedJson "unsorted-keys-bytes"))
    ∧ specGetRequestBody envC6 reqC6 = .ok (some (.encodedJson "sorted-keys-bytes"))
    ∧ getRequestBody envC6 reqC6 ≠ specGetRequestBody envC6 reqC6 := by
  refine ⟨rfl, rfl, ?_⟩
  intro h
  rw [show getRequestBody envC6 reqC6 = .ok (some (.encodedJson "unsorted-keys-bytes")) from rfl,
      show specGetRequestBody envC6 reqC6 = .ok (some (.encodedJson "sorted-keys-bytes")) from rfl] at h
  simp at h

/-- C6 amended: streams pass through unchanged, bytes and strings are
wrapped as fixed-length readable sources, and any other value is
JSON-encoded by the package-default jsoniter encoder (the client's
configured lazily-cached codec is not consulted); a default-encoder
failure is wrapped and returned. -/
theorem claim_C6_body_resolution (env : GoEnv) (r : ReqModel) :
    (r.body = none → getRequestBody env r = .ok none)
    ∧ (∀ id, r.body = some (.reader id) →
        getRequestBody env r = .ok (some (.passthroughReader id)))
    ∧ (∀ data, r.body = some (.bytes data) →
        getRequestBody env r = .ok (some (.fixedLen data)))
    ∧ (∀ s, r.body = some (.str s) →
        getRequestBody env r = .ok (some (.fixedLen (goStrBytes s))))
    ∧ (∀ v data, r.body = some (.other v) → env.encode .jsoniterDefault v = .ok data →
        getRequestBody env r = .ok (some (.encodedJson data)))
    ∧ (∀ v m, r.body = some (.other v) → env.encode .jsoniterDefault v = .error m →
        getRequestBody env r = .error (.wrap "failed to encode request body" (.simple m))) := by
  refine ⟨?_, ?_, ?_, ?_, ?_, ?_⟩
  · intro h; simp [getRequestBody, h]
  · intro id h; simp [getRequestBody, h]
  · intro data h; simp [getRequestBody, h]
  · intro s h; simp [getRequestBody, h]
  · intro v data h he; simp [getRequestBody, h, he]
  · intro v m h he; simp [getRequestBody, h, he]

theorem claim_C6_witness :
    getRequestBody envC6 reqC6 = .ok (some (.encodedJson "unsorted-keys-bytes"))
    ∧ getRequestBody envC6 { simpleReq with body := some (.bytes [104, 105]) } =
        .ok (some (.fixedLen [104, 105])) :=
  ⟨(claim_C6_body_resolution envC6 reqC6).2.2.2.2.1 0 "unsorted-keys-bytes" rfl rfl,
   (claim_C6_body_resolution envC6 _).2.2.1 [104, 105] rfl⟩

/-- A declared error struct whose zero value renders an empty message
and which the body decodes into with the rendered message
"quota exceeded". -/
def slotC4 : ErrSlot :=
  { zeroMsg := "", dec := fun _ => .ok, msgAfter := fun _ => "quota exceeded" }

/-- A 404 response whose body is the error payload (a valid JSON
object such as an object with an error message field, here opaque). -/
def respC4 : HttpResp := { statusCode := 404, status := "404 Not Found", body := "error-payload" }

/-- The request declaring `slotC4` as parsable error destination. -/
def reqC4 : ReqModel := { simpleReq with errorSlots := some [slotC4] }

/-- C4: evaluating `Do` at a non-2xx response whose body decodes into
the declared error struct with the non-empty message "quota exceeded"
(second and third conjuncts).  The returned `ErrorResponse` carries a
nil parent and unwraps to nothing — the decoded payload is never
attached, because the error path hands `Unmarshal` the `[]error` slice
as a single decode target instead of spreading it, so the slot is
never populated. -/
theorem claim_C4_error_chain_broken :
    (Do simpleEnv simpleCfg reqC4 true (fun _ => .ok respC4)).result =
      .err (.errorResponse "404 Not Found" (some respC4) none)
    ∧ slotC4.dec respC4.body = .ok
    ∧ slotC4.msgAfter respC4.body = "quota exceeded"
    ∧ goUnwrap (.errorResponse "404 Not Found" (some respC4) none) = none :=
  ⟨rfl, rfl, rfl, rfl⟩

theorem length_filterMap_lt_of_mem_none {α β : Type} (f : α → Option β) (l : List α)
    (o : α) (ho : o ∈ l) (hnone : f o = none) :
    (l.filterMap f).length < l.length := by
  induction l with
  | nil => cases ho
  | cons x xs ih =>
    rcases List.mem_cons.mp ho with rfl | hmem
    · rw [List.filterMap_cons_none hnone]
      have := List.length_filterMap_le f xs
      simp only [List.length_cons]
      omega
    · cases hx : f x with
      | none =>
        rw [List.filterMap_cons_none hx]
        have := ih hmem
        simp only [List.length_cons]
        omega
      | some b =>
        rw [List.filterMap_cons_some hx]
        have := ih hmem
        simp only [List.length_cons]
        omega

/-- `Unmarshal` returns nil as soon as one target does not fail
outright (succeeds or hits end-of-input). -/
theorem unmarshalResult_eq_none (outcomes : List DecodeOutcome) (o : DecodeOutcome)
    (ho : o ∈ outcomes) (hnf : ∀ m, o ≠ .fail m) :
    unmarshalResult outcomes = none := by
  have hmatch : (fun o => match o with | DecodeOutcome.fail m => some m | _ => none) o
      = (none : Option String) := by
    cases o with
    | ok => rfl
    | eof => rfl
    | fail m => exact absurd rfl (hnf m)
  unfold unmarshalResult
  have hne : outcomes ≠ [] := by rintro rfl; cases ho
  rw [if_neg (by simpa [List.isEmpty_iff] using hne)]
  have hlt := length_filterMap_lt_of_mem_none
    (fun o => match o with | DecodeOutcome.fail m => some m | _ => none) outcomes o ho hmatch
  simp only
  rw [if_neg (by omega)]

/-- A 2xx response with a nil destination resolves to a nil error. -/
theorem resolveResponse_no_dest (env : GoEnv) (request : ReqModel) (resp : HttpResp)
    (h2xx : 200 ≤ resp.statusCode ∧ resp.statusCode ≤ 299) :
    resolveResponse env request false resp = .ok := by
  simp [resolveResponse, checkForErrorResponse, h2xx]

/-- Every request `finishBuild` constructs starts with no basic auth
and no headers. -/
theorem finishBuild_built (env : GoEnv) (request : ReqModel) (p : String)
    (q : List (String × String)) (r : OutboundReq)
    (h : finishBuild env request p q = .built r) :
    r.basicAuth = none ∧ r.headers = [] := by
  unfold finishBuild at h
  split at h
  · simp at h
  · split at h
    · injection h with h
      subst h
      exact ⟨rfl, rfl⟩
    · simp at h

/-- Every request `getHttpRequest` builds starts with no basic auth
and no headers. -/
theorem getHttpRequest_built (env : GoEnv) (request : ReqModel) (base : UrlParts)
    (r : OutboundReq) (h : getHttpRequest env request base = .built r) :
    r.basicAuth = none ∧ r.headers = [] := by
  unfold getHttpRequest at h
  split at h
  · simp at h
  · dsimp only at h
    split at h
    · exact finishBuild_built _ _ _ _ _ h
    · split at h
      · simp at h
      · split at h
        · simp at h
        · exact finishBuild_built _ _ _ _ _ h

/-- One `Do` level whose transport send succeeds: resolution of the
response, one send, no sleep. -/
theorem doAttempt_send_ok (env : GoEnv) (cfg : ClientCfg) (request : ReqModel)
    (dest : Bool) (transport : Nat → Except String HttpResp) (fuel attempt : Nat)
    (base : UrlParts) (req0 req1 : OutboundReq) (pf : Nat) (resp : HttpResp)
    (hbase : cfg.baseURL = some base)
    (hbuild : getHttpRequest env request base = .built req0)
    (hauth : applyAuth env cfg (request.authPref.getD false) req0 = .authed req1 pf)
    (htr : transport attempt = .ok resp) :
    doAttempt env cfg request dest transport fuel attempt =
      ⟨resolveResponse env request dest resp, 1, 0, pf, [addStdHeaders cfg req1]⟩ := by
  unfold doAttempt
  rw [hbase]
  dsimp only
  rw [hbuild]
  dsimp only
  rw [hauth, htr]

/-- One `Do` level whose transport send fails with attempts remaining:
the whole sequence re-runs at the next attempt, with the send, sleep
and preflight counters and the sent-request log extended. -/
theorem doAttempt_retry (env : GoEnv) (cfg : ClientCfg) (request : ReqModel)
    (dest : Bool) (transport : Nat → Except String HttpResp) (f attempt : Nat)
    (base : UrlParts) (req0 req1 : OutboundReq) (pf : Nat) (t : String)
    (hbase : cfg.baseURL = some base)
    (hbuild : getHttpRequest env request base = .built req0)
    (hauth : applyAuth env cfg (request.authPref.getD false) req0 = .authed req1 pf)
    (htr : transport attempt = .error t)
    (hlt : (attempt : Int) < cfg.maxRetries) :
    doAttempt env cfg request dest transport (f + 1) attempt =
      ⟨(doAttempt env cfg request dest transport f (attempt + 1)).result,
       (doAttempt env cfg request dest transport f (attempt + 1)).sends + 1,
       (doAttempt env cfg request dest transport f (attempt + 1)).sleeps + 1,
       (doAttempt env cfg request dest transport f (attempt + 1)).preflightCalls + pf,
       addStdHeaders cfg req1 ::
         (doAttempt env cfg request dest transport f (attempt + 1)).sentReqs⟩ := by
  conv_lhs => unfold doAttempt
  rw [hbase]
  dsimp only
  rw [hbuild]
  dsimp only
  rw [hauth, htr]
  dsimp only
  rw [if_pos hlt]

/-- One `Do` level whose transport send fails with attempts exhausted:
the transport error is wrapped and returned. -/
theorem doAttempt_exhaust (env : GoEnv) (cfg : ClientCfg) (request : ReqModel)
    (dest : Bool) (transport : Nat → Except String HttpResp) (fuel attempt : Nat)
    (base : UrlParts) (req0 req1 : OutboundReq) (pf : Nat) (t : String)
    (hbase : cfg.baseURL = some base)
    (hbuild : getHttpRequest env request base = .built req0)
    (hauth : applyAuth env cfg (request.authPref.getD false) req0 = .authed req1 pf)
    (htr : transport attempt = .error t)
    (hge : ¬ ((attempt : Int) < cfg.maxRetries)) :
    doAttempt env cfg request dest transport fuel attempt =
      ⟨.err (.wrap "failed to do http request" (.transport t)), 1, 0, pf,
       [addStdHeaders cfg req1]⟩ := by
  unfold doAttempt
  rw [hbase]
  dsimp only
  rw [hbuild]
  dsimp only
  rw [hauth, htr]
  dsimp only
  rw [if_neg hge]

/-- A run of `k` consecutive transport failures inside the retry bound
followed by a success resolves the response after `k + 1` sends and
`k` backoff sleeps, re-running the identical build-authenticate-send
sequence each time. -/
theorem doAttempt_run_success (env : GoEnv) (cfg : ClientCfg) (request : ReqModel)
    (dest : Bool) (transport : Nat → Except String HttpResp) (em : Nat → String)
    (resp : HttpResp) (base : UrlParts) (req0 req1 : OutboundReq) (pf : Nat)
    (hbase : cfg.baseURL = some base)
    (hbuild : getHttpRequest env request base = .built req0)
    (hauth : applyAuth env cfg (request.authPref.getD false) req0 = .authed req1 pf) :
    ∀ (k a fuel : Nat), k ≤ fuel →
      (∀ i, a ≤ i → i < a + k → transport i = .error (em i)) →
      ((a + k : Nat) : Int) ≤ cfg.maxRetries →
      transport (a + k) = .ok resp →
      doAttempt env cfg request dest transport fuel a =
        ⟨resolveResponse env request dest resp, k + 1, k, (k + 1) * pf,
         List.replicate (k + 1) (addStdHeaders cfg req1)⟩ := by
  intro k
  induction k with
  | zero =>
    intro a fuel _ _ _ hok
    rw [doAttempt_send_ok env cfg request dest transport fuel a base req0 req1 pf resp
      hbase hbuild hauth (by simpa using hok)]
    simp
  | succ n ih =>
    intro a fuel hf hfail hmr hok
    have hfa : transport a = .error (em a) := hfail a le_rfl (by omega)
    have hlt : (a : Int) < cfg.maxRetries := by
      have h1 : ((a + (n + 1) : Nat) : Int) ≤ cfg.maxRetries := hmr
      push_cast at h1
      omega
    obtain ⟨f, rfl⟩ : ∃ f, fuel = f + 1 := ⟨fuel - 1, by omega⟩
    rw [doAttempt_retry env cfg request dest transport f a base req0 req1 pf (em a)
      hbase hbuild hauth hfa hlt]
    have ha1 : a + 1 + n = a + (n + 1) := by omega
    have ih1 := ih (a + 1) f (by omega)
      (fun i h1 h2 => hfail i (by omega) (by omega))
      (by rw [ha1]; exact hmr) (by rw [ha1]; exact hok)
    rw [ih1]
    dsimp only
    congr 1
    ring

/-- A run of transport failures that exhausts the retry bound (the
bound equals the attempt index of the last send) returns the last
transport error wrapped, after `k + 1` sends and `k` sleeps. -/
theorem doAttempt_run_exhaust (env : GoEnv) (cfg : ClientCfg) (request : ReqModel)
    (dest : Bool) (transport : Nat → Except String HttpResp) (em : Nat → String)
    (base : UrlParts) (req0 req1 : OutboundReq) (pf : Nat)
    (hbase : cfg.baseURL = some base)
    (hbuild : getHttpRequest env request base = .built req0)
    (hauth : applyAuth env cfg (request.authPref.getD false) req0 = .authed req1 pf) :
    ∀ (k a fuel : Nat), k ≤ fuel →
      (∀ i, a ≤ i → i ≤ a + k → transport i = .error (em i)) →
      cfg.maxRetries = ((a + k : Nat) : Int) →
      doAttempt env cfg request dest transport fuel a =
        ⟨.err (.wrap "failed to do http request" (.transport (em (a + k)))),
         k + 1, k, (k + 1) * pf, List.replicate (k + 1) (addStdHeaders cfg req1)⟩ := by
  intro k
  induction k with
  | zero =>
    intro a fuel _ hfail hmr
    have hfa : transport a = .error (em a) := hfail a le_rfl (by omega)
    have hge : ¬ ((a : Int) < cfg.maxRetries) := by rw [hmr]; push_cast; omega
    rw [doAttempt_exhaust env cfg request dest transport fuel a base req0 req1 pf (em a)
      hbase hbuild hauth hfa hge]
    simp
  | succ n ih =>
    intro a fuel hf hfail hmr
    have hfa : transport a = .error (em a) := hfail a le_rfl (by omega)
    have hlt : (a : Int) < cfg.maxRetries := by rw [hmr]; push_cast; omega
    obtain ⟨f, rfl⟩ : ∃ f, fuel = f + 1 := ⟨fuel - 1, by omega⟩
    rw [doAttempt_retry env cfg request dest transport f a base req0 req1 pf (em a)
      hbase hbuild hauth hfa hlt]
    have ha1 : a + 1 + n = a + (n + 1) := by omega
    have ih1 := ih (a + 1) f (by omega)
      (fun i h1 h2 => hfail i (by omega) (by omega))
      (by rw [ha1]; exact hmr)
    rw [ih1]
    dsimp only
    rw [ha1]
    congr 1
    ring

/-- C1: for a logical call whose transport errors on each of the first
N-1 sends and succeeds on the N-th (N ≥ 2), and whose 2xx response
needs no destination decoding, `Do` with maxRetries = N returns success
(nil) after exactly N sends and N-1 fixed-backoff sleeps, re-running
the identical build-authenticate-send sequence each attempt starting
from attempt counter zero; `Do` with maxRetries = N-2 returns the
wrapped transport error after exactly N-1 sends. -/
theorem claim_C1_retry_counts (env : GoEnv) (cfg : ClientCfg) (request : ReqModel)
    (transport : Nat → Except String HttpResp) (em : Nat → String) (resp : HttpResp)
    (base : UrlParts) (req0 req1 : OutboundReq) (pf : Nat) (N : Nat)
    (hN : 2 ≤ N)
    (hbase : cfg.baseURL = some base)
    (hbuild : getHttpRequest env request base = .built req0)
    (hauth : applyAuth env cfg (request.authPref.getD false) req0 = .authed req1 pf)
    (hfail : ∀ i, i + 1 < N → transport i = .error (em i))
    (hok : transport (N - 1) = .ok resp)
    (h2xx : 200 ≤ resp.statusCode ∧ resp.statusCode ≤ 299) :
    Do env { cfg with maxRetries := (N : Int) } request false transport =
      ⟨.ok, N, N - 1, N * pf, List.replicate N (addStdHeaders cfg req1)⟩
    ∧ Do env { cfg with maxRetries := (N : Int) - 2 } request false transport =
      ⟨.err (.wrap "failed to do http request" (.transport (em (N - 2)))),
       N - 1, N - 2, (N - 1) * pf, List.replicate (N - 1) (addStdHeaders cfg req1)⟩ := by
  constructor
  · unfold Do
    have hfuel : ({ cfg with maxRetries := (N : Int) } : ClientCfg).maxRetries.toNat = N := by
      simp
    rw [hfuel]
    have h := doAttempt_run_success env { cfg with maxRetries := (N : Int) } request false
      transport em resp base req0 req1 pf hbase hbuild hauth
      (N - 1) 0 N (by omega)
      (fun i h1 h2 => hfail i (by omega))
      (by push_cast; omega)
      (by have : 0 + (N - 1) = N - 1 := by omega
          rw [this]; exact hok)
    rw [h]
    rw [resolveResponse_no_dest env request resp h2xx]
    have h1 : N - 1 + 1 = N := by omega
    rw [h1]
    rfl
  · unfold Do
    have hfuel : ({ cfg with maxRetries := (N : Int) - 2 } : ClientCfg).maxRetries.toNat = N - 2 := by
      simp only
      omega
    rw [hfuel]
    have h := doAttempt_run_exhaust env { cfg with maxRetries := (N : Int) - 2 } request false
      transport em base req0 req1 pf hbase hbuild hauth
      (N - 2) 0 (N - 2) le_rfl
      (fun i h1 h2 => hfail i (by omega))
      (by simp only; push_cast; omega)
    rw [h]
    have h1 : 0 + (N - 2) = N - 2 := by omega
    have h2 : N - 2 + 1 = N - 1 := by omega
    rw [h1, h2]
    rfl

/-- A 2xx response with an empty body. -/
def respOk : HttpResp := { statusCode := 200, status := "200 OK", body := "" }

/-- A transport failing on attempts 0 and 1 and succeeding on 2. -/
def transportC1 : Nat → Except String HttpResp :=
  fun i => if i = 2 then .ok respOk else .error "boom"

theorem claim_C1_witness :
    Do simpleEnv { simpleCfg with maxRetries := ((3 : Nat) : Int) } simpleReq false transportC1 =
      ⟨.ok, 3, 2, 0, List.replicate 3 (addStdHeaders simpleCfg simpleBuilt)⟩
    ∧ Do simpleEnv { simpleCfg with maxRetries := ((3 : Nat) : Int) - 2 } simpleReq false transportC1 =
      ⟨.err (.wrap "failed to do http request" (.transport "boom")), 2, 1, 0,
       List.replicate 2 (addStdHeaders simpleCfg simpleBuilt)⟩ := by
  have h := claim_C1_retry_counts simpleEnv simpleCfg simpleReq transportC1 (fun _ => "boom")
    respOk ⟨"", []⟩ simpleBuilt simpleBuilt 0 3 (by omega) rfl simpleReq_builds rfl
    (by intro i hi
        match i, hi with
        | 0, _ => rfl
        | 1, _ => rfl
        | (n + 2), hi => exact absurd hi (by omega))
    rfl (by refine ⟨?_, ?_⟩ <;> decide)
  exact ⟨h.1, h.2⟩

/-- C3: a 2xx response with a destination whose body decodes into the
destination and into a declared error slot leaving a non-empty
rendered message makes `Do` return an ErrorResponse wrapping that slot
as its parent, despite the successful status and destination decode. -/
theorem claim_C3_error_in_2xx_body (env : GoEnv) (cfg : ClientCfg) (request : ReqModel)
    (transport : Nat → Except String HttpResp) (base : UrlParts)
    (req0 req1 : OutboundReq) (pf : Nat) (resp : HttpResp) (slots : List ErrSlot)
    (m : String)
    (hbase : cfg.baseURL = some base)
    (hbuild : getHttpRequest env request base = .built req0)
    (hauth : applyAuth env cfg (request.authPref.getD false) req0 = .authed req1 pf)
    (htr : transport 0 = .ok resp)
    (h2xx : 200 ≤ resp.statusCode ∧ resp.statusCode ≤ 299)
    (hsl : request.errorSlots.getD [] = slots)
    (hdec : env.decDest resp.body = .ok)
    (hfind : (slotMsgsAfter resp.body slots).find? (fun s => s ≠ "") = some m) :
    (Do env cfg request true transport).result =
      .err (.errorResponse "error in response" (some resp) (some (.slotErr m))) := by
  unfold Do
  rw [doAttempt_send_ok env cfg request true transport cfg.maxRetries.toNat 0
    base req0 req1 pf resp hbase hbuild hauth htr]
  dsimp only
  unfold resolveResponse
  dsimp only
  rw [hsl]
  have hcheck : checkForErrorResponse resp = none := by
    unfold checkForErrorResponse
    rw [if_pos h2xx]
  rw [hcheck]
  dsimp only
  have hun : unmarshalResult (successOutcomes env resp.body slots) = none := by
    apply unmarshalResult_eq_none _ DecodeOutcome.ok ?_ (by intro mm; simp)
    unfold successOutcomes
    rw [hdec]
    exact List.mem_cons_self _ _
  rw [hun]
  dsimp only
  rw [hfind]
  rfl

/-- The 2xx response carrying a logical error payload. -/
def respC3 : HttpResp := { statusCode := 200, status := "200 OK", body := "quota-error-body" }

/-- A slot the 2xx body decodes into with message "quota exceeded". -/
def slotC3 : ErrSlot :=
  { zeroMsg := "", dec := fun _ => .ok, msgAfter := fun _ => "quota exceeded" }

/-- The request declaring `slotC3`. -/
def reqC3 : ReqModel := { simpleReq with errorSlots := some [slotC3] }

theorem claim_C3_witness :
    (Do simpleEnv simpleCfg reqC3 true (fun _ => .ok respC3)).result =
      .err (.errorResponse "error in response" (some respC3) (some (.slotErr "quota exceeded"))) :=
  claim_C3_error_in_2xx_body simpleEnv simpleCfg reqC3 (fun _ => .ok respC3) ⟨"", []⟩
    simpleBuilt simpleBuilt 0 respC3 [slotC3] "quota exceeded"
    rfl rfl rfl rfl (by refine ⟨?_, ?_⟩ <;> decide) rfl rfl rfl

/-- C5: a non-2xx response where the error-path decode itself fails
makes `Do` return an ErrorResponse whose message is the HTTP status
line and whose parent is nil — the decode error is discarded. -/
theorem claim_C5_decode_failure_swallowed (env : GoEnv) (cfg : ClientCfg)
    (request : ReqModel) (dest : Bool) (transport : Nat → Except String HttpResp)
    (base : UrlParts) (req0 req1 : OutboundReq) (pf : Nat) (resp : HttpResp) (m : String)
    (hbase : cfg.baseURL = some base)
    (hbuild : getHttpRequest env request base = .built req0)
    (hauth : applyAuth env cfg (request.authPref.getD false) req0 = .authed req1 pf)
    (htr : transport 0 = .ok resp)
    (hne : ¬ (200 ≤ resp.statusCode ∧ resp.statusCode ≤ 299))
    (hdecfail : env.decSliceVal resp.body = .fail m) :
    (Do env cfg request dest transport).result =
      .err (.errorResponse resp.status (some resp) none) := by
  unfold Do
  rw [doAttempt_send_ok env cfg request dest transport cfg.maxRetries.toNat 0
    base req0 req1 pf resp hbase hbuild hauth htr]
  dsimp only
  unfold resolveResponse
  dsimp only
  have hcheck : checkForErrorResponse resp = some (NewErrorResponse resp.status (some resp) none) := by
    unfold checkForErrorResponse
    rw [if_neg hne]
  rw [hcheck]
  dsimp only
  rw [hdecfail]
  rfl

/-- The environment whose slice-target decode fails: the body is not
valid JSON. -/
def envC5 : GoEnv :=
  { simpleEnv with decSliceVal := fun _ => .fail "json: invalid input" }

theorem claim_C5_witness :
    (Do envC5 simpleCfg simpleReq true (fun _ => .ok respC4)).result =
      .err (.errorResponse "404 Not Found" (some respC4) none) :=
  claim_C5_decode_failure_swallowed envC5 simpleCfg simpleReq true (fun _ => .ok respC4)
    ⟨"", []⟩ simpleBuilt simpleBuilt 0 respC4 "json: invalid input"
    rfl rfl rfl rfl (by decide) rfl

/-- C9: a 2xx response with a destination whose body makes every decode
target (destination and declared zero-rendering slots) report
end-of-input — as an empty body does — yields a nil error from `Do`:
end-of-input is not counted as a decode failure for any target. -/
theorem claim_C9_empty_body_ok (env : GoEnv) (cfg : ClientCfg) (request : ReqModel)
    (transport : Nat → Except String HttpResp) (base : UrlParts)
    (req0 req1 : OutboundReq) (pf : Nat) (resp : HttpResp) (slots : List ErrSlot)
    (hbase : cfg.baseURL = some base)
    (hbuild : getHttpRequest env request base = .built req0)
    (hauth : applyAuth env cfg (request.authPref.getD false) req0 = .authed req1 pf)
    (htr : transport 0 = .ok resp)
    (h2xx : 200 ≤ resp.statusCode ∧ resp.statusCode ≤ 299)
    (hsl : request.errorSlots.getD [] = slots)
    (hdd : env.decDest resp.body = .eof)
    (hslot : ∀ s ∈ slots, s.dec resp.body = .eof ∧ s.zeroMsg = "") :
    (Do env cfg request true transport).result = .ok := by
  unfold Do
  rw [doAttempt_send_ok env cfg request true transport cfg.maxRetries.toNat 0
    base req0 req1 pf resp hbase hbuild hauth htr]
  dsimp only
  unfold resolveResponse
  dsimp only
  rw [hsl]
  have hcheck : checkForErrorResponse resp = none := by
    unfold checkForErrorResponse
    rw [if_pos h2xx]
  rw [hcheck]
  dsimp only
  have hun : unmarshalResult (successOutcomes env resp.body slots) = none := by
    apply unmarshalResult_eq_none _ DecodeOutcome.eof ?_ (by intro mm; simp)
    unfold successOutcomes
    rw [hdd]
    exact List.mem_cons_self _ _
  rw [hun]
  dsimp only
  have hfind : (slotMsgsAfter resp.body slots).find? (fun s => s ≠ "") = none := by
    rw [List.find?_eq_none]
    intro x hx
    unfold slotMsgsAfter at hx
    rcases List.mem_map.mp hx with ⟨s, hs, rfl⟩
    have h := hslot s hs
    rw [if_neg (by rw [h.1]; simp), h.2]
    simp
  rw [hfind]
  rfl

/-- An environment whose destination decode reports end-of-input. -/
def envC9 : GoEnv := { simpleEnv with decDest := fun _ => .eof }

/-- A declared slot that reports end-of-input on the empty body and
renders an empty message while undecoded. -/
def slotC9 : ErrSlot :=
  { zeroMsg := "", dec := fun _ => .eof, msgAfter := fun _ => "never" }

/-- The request declaring `slotC9`. -/
def reqC9 : ReqModel := { simpleReq with errorSlots := some [slotC9] }

theorem claim_C9_witness :
    (Do envC9 simpleCfg reqC9 true (fun _ => .ok respOk)).result = .ok :=
  claim_C9_empty_body_ok envC9 simpleCfg reqC9 (fun _ => .ok respOk) ⟨"", []⟩
    simpleBuilt simpleBuilt 0 respOk [slotC9]
    rfl rfl rfl rfl (by refine ⟨?_, ?_⟩ <;> decide) rfl rfl
    (by intro s hs
        rw [List.mem_singleton] at hs
        subst hs
        exact ⟨rfl, rfl⟩)

/-- With an auth-skip preference evaluating true, every level of the
retry recursion invokes no preflight signing and hands the transport a
request with no basic auth and exactly the three standard headers. -/
theorem doAttempt_skip_auth (env : GoEnv) (cfg : ClientCfg) (request : ReqModel)
    (dest : Bool) (transport : Nat → Except String HttpResp)
    (hskip : request.authPref = some true) :
    ∀ fuel attempt,
      (doAttempt env cfg request dest transport fuel attempt).preflightCalls = 0
      ∧ ∀ r ∈ (doAttempt env cfg request dest transport fuel attempt).sentReqs,
          r.basicAuth = none ∧ r.headers = stdHeaders cfg := by
  have hAA : ∀ req0 : OutboundReq,
      applyAuth env cfg (request.authPref.getD false) req0 = .authed req0 0 := by
    intro req0
    rw [hskip]
    rfl
  intro fuel
  induction fuel with
  | zero =>
    intro attempt
    unfold doAttempt
    cases hb : cfg.baseURL with
    | none => exact ⟨rfl, by intro r hr; cases hr⟩
    | some base =>
      dsimp only
      cases hg : getHttpRequest env request base with
      | failed e => exact ⟨rfl, by intro r hr; cases hr⟩
      | fatalExit m => exact ⟨rfl, by intro r hr; cases hr⟩
      | built req0 =>
        obtain ⟨hba, hhd⟩ := getHttpRequest_built env request base req0 hg
        dsimp only
        rw [hAA req0]
        dsimp only
        cases ht : transport attempt with
        | ok resp =>
          refine ⟨rfl, ?_⟩
          intro r hr
          rw [List.mem_singleton] at hr
          subst hr
          exact ⟨by simp [addStdHeaders, hba], by simp [addStdHeaders, hhd]⟩
        | error t =>
          dsimp only
          by_cases hlt : (attempt : Int) < cfg.maxRetries
          · rw [if_pos hlt]
            refine ⟨rfl, ?_⟩
            intro r hr
            rw [List.mem_singleton] at hr
            subst hr
            exact ⟨by simp [addStdHeaders, hba], by simp [addStdHeaders, hhd]⟩
          · rw [if_neg hlt]
            refine ⟨rfl, ?_⟩
            intro r hr
            rw [List.mem_singleton] at hr
            subst hr
            exact ⟨by simp [addStdHeaders, hba], by simp [addStdHeaders, hhd]⟩
  | succ f ih =>
    intro attempt
    unfold doAttempt
    cases hb : cfg.baseURL with
    | none => exact ⟨rfl, by intro r hr; cases hr⟩
    | some base =>
      dsimp only
      cases hg : getHttpRequest env request base with
      | failed e => exact ⟨rfl, by intro r hr; cases hr⟩
      | fatalExit m => exact ⟨rfl, by intro r hr; cases hr⟩
      | built req0 =>
        obtain ⟨hba, hhd⟩ := getHttpRequest_built env request base req0 hg
        dsimp only
        rw [hAA req0]
        dsimp only
        cases ht : transport attempt with
        | ok resp =>
          refine ⟨rfl, ?_⟩
          intro r hr
          rw [List.mem_singleton] at hr
          subst hr
          exact ⟨by simp [addStdHeaders, hba], by simp [addStdHeaders, hhd]⟩
        | error t =>
          dsimp only
          by_cases hlt : (attempt : Int) < cfg.maxRetries
          · rw [if_pos hlt]
            obtain ⟨ihp, ihs⟩ := ih (attempt + 1)
            refine ⟨by simpa using ihp, ?_⟩
            intro r hr
            rcases List.mem_cons.mp hr with rfl | hmem
            · exact ⟨by simp [addStdHeaders, hba], by simp [addStdHeaders, hhd]⟩
            · exact ihs r hmem
          · rw [if_neg hlt]
            refine ⟨rfl, ?_⟩
            intro r hr
            rw [List.mem_singleton] at hr
            subst hr
            exact ⟨by simp [addStdHeaders, hba], by simp [addStdHeaders, hhd]⟩

/-- C8: a request whose auth-skip preference evaluates true is sent
with no credentials, regardless of the configured auth type: no
preflight invocation, and every request handed to the transport has no
basic auth and exactly the three standard headers (so no api-key
header was added). -/
theorem claim_C8_skip_auth (env : GoEnv) (cfg : ClientCfg) (request : ReqModel)
    (dest : Bool) (transport : Nat → Except String HttpResp)
    (hskip : request.authPref = some true) :
    (Do env cfg request dest transport).preflightCalls = 0
    ∧ ∀ r ∈ (Do env cfg request dest transport).sentReqs,
        r.basicAuth = none ∧ r.headers = stdHeaders cfg :=
  doAttempt_skip_auth env cfg request dest transport hskip cfg.maxRetries.toNat 0

/-- A client configured with preflight auth and a signing function. -/
def cfgC8 : ClientCfg := { simpleCfg with authType := .preflight, hasPreflightFunc := true }

/-- An environment whose preflight function would visibly sign the
request if it ran. -/
def envC8 : GoEnv :=
  { simpleEnv with preflightFn := fun r => .ok { r with basicAuth := some ("signer", "key") } }

/-- The request opting out of authentication. -/
def reqC8 : ReqModel := { simpleReq with authPref := some true }

theorem claim_C8_witness :
    (Do envC8 cfgC8 reqC8 false (fun _ => .ok respOk)).preflightCalls = 0
    ∧ ((Do envC8 cfgC8 reqC8 false (fun _ => .ok respOk)).sentReqs.headD
        simpleBuilt).basicAuth = none
    ∧ ((Do envC8 cfgC8 reqC8 false (fun _ => .ok respOk)).sentReqs.headD
        simpleBuilt).headers = stdHeaders cfgC8 := by
  have h := claim_C8_skip_auth envC8 cfgC8 reqC8 false (fun _ => .ok respOk) rfl
  have hs : (Do envC8 cfgC8 reqC8 false (fun _ => .ok respOk)).sentReqs =
      [addStdHeaders cfgC8 simpleBuilt] := rfl
  have hmem : addStdHeaders cfgC8 simpleBuilt ∈
      (Do envC8 cfgC8 reqC8 false (fun _ => .ok respOk)).sentReqs := by
    rw [hs]
    exact List.mem_singleton.mpr rfl
  have hr := h.2 _ hmem
  refine ⟨h.1, ?_, ?_⟩
  · rw [hs]
    exact hr.1
  · rw [hs]
    exact hr.2
